import Mathlib

/-!
Verification of the z4term pane-layout tree engine and keybinding engine.

Shallow embedding of `z4term.py`.  The pane tree of a tab is the GTK widget
tree rooted at the tab's `Gtk.Box`: leaves are `TerminalPane` widgets
(`PaneNode.term`, carrying an identity and the best-effort working-directory
hint), internal nodes are `Gtk.Paned` containers (`PaneNode.paned`, carrying
orientation and divider position).  A `Gtk.Paned` child slot may be empty
(only reachable through session restore), modelled by `PaneNode.missing`.
Divider positions are modelled as the value they hold after the deferred
idle-callback layout pass has run (the process is single threaded, so the
deferred assignment always observes the value scheduled for it).
-/

inductive Orient where
  | horizontal
  | vertical
deriving DecidableEq, Repr, BEq

/-- A node of the pane tree.  `term i cwd` is a `TerminalPane` with identity
`i` (Python object identity) and working-directory hint `cwd`; `paned` is a
`Gtk.Paned` with orientation, divider position (post-layout value) and two
child slots; `missing` is an empty child slot (`None`). -/
inductive PaneNode where
  | missing
  | term (id : Nat) (cwd : Option String)
  | paned (orient : Orient) (pos : Int) (c1 c2 : PaneNode)
deriving DecidableEq, Repr, BEq

/-- A session-document node (`PaneDoc` in the JSON schema).  `null` is JSON
null, `unknown` is a node whose `type` tag is neither `terminal` nor
`paned`. -/
inductive PaneDoc where
  | null
  | terminal (cwd : Option String)
  | panedDoc (orient : String) (pos : Option Int) (c1 c2 : PaneDoc)
  | unknown
deriving DecidableEq, Repr, BEq

/-- `TerminalWindow._collect_terminals`: pre-order, left-to-right list of the
terminal leaves of a widget subtree (empty slots contribute nothing). -/
def collect_terminals : PaneNode → List Nat
  | .missing => []
  | .term i _ => [i]
  | .paned _ _ c1 c2 => collect_terminals c1 ++ collect_terminals c2

/-- Membership test for a leaf identity (used at the tab level where the code
checks `terminal in self._collect_terminals(page)`). -/
def contains (t : PaneNode) (tid : Nat) : Bool :=
  (collect_terminals t).contains tid

/-- The tree-fullness invariant: the tree is not an empty slot and every
`paned` node has two non-missing children. -/
def Full : PaneNode → Bool
  | .missing => false
  | .term _ _ => true
  | .paned _ _ c1 c2 => Full c1 && Full c2

/-- Nesting depth of `paned` containers (a leaf or empty slot has height 0). -/
def height : PaneNode → Nat
  | .missing => 0
  | .term _ _ => 0
  | .paned _ _ c1 c2 => 1 + max (height c1) (height c2)

/-- `TerminalWindow.split_pane`: replace the leaf whose identity is `target`
by a new `paned` holding the original leaf as `child1` and a freshly spawned
leaf (identity `newId`, spawned with the original leaf's working-directory
hint) as `child2`.  The slot the leaf occupied in its parent (`Box`,
`pack1` or `pack2`) is preserved.  `pos` is the divider position the deferred
`_set_half` idle callback assigns (geometry dependent, passed in here).
If no leaf has identity `target` the operation is a no-op (the code returns
early when the focused terminal is gone). -/
def split_pane : PaneNode → Nat → Orient → Nat → Int → PaneNode
  | .missing, _, _, _, _ => .missing
  | .term i c, target, o, newId, pos =>
      if i = target then .paned o pos (.term i c) (.term newId c) else .term i c
  | .paned po pp c1 c2, target, o, newId, pos =>
      .paned po pp (split_pane c1 target o newId pos) (split_pane c2 target o newId pos)

/-- Whether a node is the terminal leaf with identity `tid` (the code's
`parent.get_child1() == term` identity test). -/
def isTermId : PaneNode → Nat → Bool
  | .term i _, tid => i = tid
  | _, _ => false

/-- The `Gtk.Paned`-parent branch of `TerminalWindow.close_pane`: the paned
whose direct child is the leaf `tid` is replaced by the sibling child in the
grandparent's slot; every other node is rebuilt unchanged.  If the sibling
slot were empty the source would raise in `parent.remove(sibling)`; that
state is unreachable for trees satisfying `Full` and no claim exercises it
(here the empty slot is simply propagated). -/
def close_in : PaneNode → Nat → PaneNode
  | .paned o p c1 c2, tid =>
      if isTermId c1 tid then c2
      else if isTermId c2 tid then c1
      else .paned o p (close_in c1 tid) (close_in c2 tid)
  | .missing, _ => .missing
  | .term i c, _ => .term i c

/-- `TerminalWindow.close_pane` on a single tab's tree: closing the root leaf
yields `none` (the owning tab is destroyed); closing a nested leaf performs
the `close_in` rotation; closing an absent leaf is a no-op. -/
def close_pane (t : PaneNode) (tid : Nat) : Option PaneNode :=
  match t with
  | .term i c => if i = tid then none else some (.term i c)
  | .missing => some .missing
  | .paned o p c1 c2 => some (close_in (.paned o p c1 c2) tid)

/-- The leaf that receives `grab_focus` after the `Gtk.Paned` branch of
`close_pane`: the first terminal, in traversal order, of the sibling subtree
that replaced the parent paned (lines 790-792 of the source). -/
def close_focus : PaneNode → Nat → Option Nat
  | .paned _ _ c1 c2, tid =>
      if isTermId c1 tid then (collect_terminals c2).head?
      else if isTermId c2 tid then (collect_terminals c1).head?
      else
        match close_focus c1 tid with
        | some f => some f
        | none => close_focus c2 tid
  | .missing, _ => none
  | .term _ _, _ => none

/-- Python's `list.index`, returning the first index of `c` if present. -/
def listIndex : List Nat → Nat → Option Nat
  | [], _ => none
  | x :: xs, c => if x = c then some 0 else (listIndex xs c).map (fun n => n + 1)

/-- The list-level logic of `TerminalWindow.navigate_next`: with terminals
`ts` and the focused terminal `cur`, focus `ts[(ts.index(cur) + 1) % len]`,
falling back to index 0 when `cur` is absent (the `ValueError` branch); do
nothing when the list is empty. -/
def navList (ts : List Nat) (cur : Option Nat) : Option Nat :=
  if ts.isEmpty then none
  else
    let nxt :=
      match cur with
      | some c =>
        match listIndex ts c with
        | some idx => (idx + 1) % ts.length
        | none => 0
      | none => 0
    ts.get? nxt

/-- `TerminalWindow.navigate_next` on the current tab's tree. -/
def navigate_next (t : PaneNode) (cur : Option Nat) : Option Nat :=
  navList (collect_terminals t) cur

/-- Iterated `navigate_next`: the focused leaf after `n` successive "next
pane" presses starting from `cur`. -/
def navPow (t : PaneNode) (cur : Option Nat) : Nat → Option Nat
  | 0 => cur
  | Nat.succ n =>
      match navPow t cur n with
      | some x => navigate_next t (some x)
      | none => none

/-- Serialization of an orientation value. -/
def orientName : Orient → String
  | .horizontal => "horizontal"
  | .vertical => "vertical"

/-- `TerminalWindow._serialize_tree`: a leaf becomes a terminal document node
carrying its best-effort working directory (`get_cwd()` is external and
best-effort; its fallback `os.environ.get("HOME", "/")` is modelled by the
stored hint with fallback "/"); a paned becomes a paned document node; an
empty child slot becomes JSON null (the inline `... if c1 else None`). -/
def serialize_tree : PaneNode → PaneDoc
  | .term _ cwd => .terminal (some (cwd.getD ("/")))
  | .paned o p c1 c2 =>
      .panedDoc (orientName o) (some p) (serialize_tree c1) (serialize_tree c2)
  | .missing => .null

/-- Orientation restoration: the source compares the stored string against
"horizontal" and defaults to vertical otherwise. -/
def parseOrient (s : String) : Orient :=
  if s = ("horizontal") then .horizontal else .vertical

/-- `TerminalWindow._restore_tree`: recursive rebuild with the hard recursion
depth ceiling (`depth > 20` yields `None`), `None` for null documents and
unrecognized type tags.  The stored divider position is applied by the
deferred `GLib.idle_add` callback; we model the post-callback value (a paned
whose document had no position keeps the GTK default 0). -/
def restore_tree (d : PaneDoc) (depth : Nat) : PaneNode :=
  match d with
  | .null => .missing
  | .terminal cwd => if depth > 20 then .missing else .term 0 cwd
  | .panedDoc o p c1 c2 =>
      if depth > 20 then .missing
      else .paned (parseOrient o) (p.getD 0)
        (restore_tree c1 (depth + 1)) (restore_tree c2 (depth + 1))
  | .unknown => .missing

/-- Layout equality: same structural shape, same orientation and divider
position at every paned, same child order; leaf identity and working
directory are ignored (they are best-effort and exempted by the spec). -/
def sameLayout : PaneNode → PaneNode → Bool
  | .missing, .missing => true
  | .term _ _, .term _ _ => true
  | .paned o p a b, .paned o2 p2 a2 b2 =>
      decide (o = o2) && decide (p = p2) && sameLayout a a2 && sameLayout b b2
  | _, _ => false

/-- A session document consisting of `n` nested paned nodes (each `child1`
is the next level, each `child2` a terminal). -/
def chainDoc : Nat → PaneDoc
  | 0 => .terminal (some ("/"))
  | Nat.succ n => .panedDoc ("horizontal") (some 1) (chainDoc n) (.terminal (some ("/")))

/-- A tree built from a single leaf by `n` successive splits of the most
recently created leaf: a right-spine chain of paned nodes of height `n`. -/
def rightChain (n : Nat) : PaneNode :=
  (List.range n).foldl (fun t k => split_pane t k .horizontal (k + 1) 400) (.term 0 none)

/-- Trees reachable from a single leaf by any sequence of split and close
operations (a close that destroys the tab yields no tree, so only the
`some` results continue the sequence). -/
inductive Reachable : PaneNode → Prop where
  | init (i : Nat) (c : Option String) : Reachable (.term i c)
  | splitStep (t : PaneNode) (L : Nat) (o : Orient) (n : Nat) (pos : Int) :
      Reachable t → Reachable (split_pane t L o n pos)
  | closeStep (t t2 : PaneNode) (L : Nat) :
      Reachable t → close_pane t L = some t2 → Reachable t2

/-- Outcome of `TerminalWindow.close_pane` at the window level. -/
inductive CloseOutcome where
  | noop
  | windowClosed
  | tabs (ts : List PaneNode)
deriving DecidableEq, Repr

/-- Index of the first tab whose tree holds the leaf `tid` (in the source the
tab is determined by the widget's parent chain; with unique leaf identities
this is the same tab). -/
def findTab : List PaneNode → Nat → Option Nat
  | [], _ => none
  | r :: rs, tid =>
      if contains r tid then some 0 else (findTab rs tid).map (fun n => n + 1)

/-- `TerminalWindow.close_pane` over the window's ordered tab list: a leaf
whose parent is the tab `Gtk.Box` (the tab's root leaf) destroys the whole
window when it is the only tab, otherwise removes just that tab; a leaf whose
parent is a `Gtk.Paned` rewrites that tab's tree with `close_in`; an absent
leaf is a no-op (`term.get_parent() is None`). -/
def window_close_pane (ts : List PaneNode) (tid : Nat) : CloseOutcome :=
  match findTab ts tid with
  | none => .noop
  | some j =>
    match ts.get? j with
    | some (.term _ _) =>
        if ts.length ≤ 1 then .windowClosed else .tabs (ts.eraseIdx j)
    | some r => .tabs (ts.set j (close_in r tid))
    | none => .noop

/-- Gdk modifier bits used by the source (`CONTROL_MASK`, `SHIFT_MASK`,
`MOD1_MASK`, `SUPER_MASK`). -/
def GDK_SHIFT_MASK : Nat := 1

def GDK_CONTROL_MASK : Nat := 4

def GDK_MOD1_MASK : Nat := 8

def GDK_SUPER_MASK : Nat := 67108864

/-- Modelled from the Gdk collaborator: `Gdk.keyval_from_name` restricted to
the single ASCII letter names the configuration grammar needs; a letter's
keyval is its character code, anything else resolves to 0 (no symbol). -/
def keyval_from_name (s : String) : Nat :=
  match s.toList with
  | [c] =>
      if (65 ≤ c.toNat ∧ c.toNat ≤ 90) ∨ (97 ≤ c.toNat ∧ c.toNat ≤ 122)
      then c.toNat else 0
  | _ => 0

/-- Modelled from the Gdk collaborator: `Gdk.keyval_to_lower` on the ASCII
letter range. -/
def keyval_to_lower (kv : Nat) : Nat :=
  if 65 ≤ kv ∧ kv ≤ 90 then kv + 32 else kv

/-- Modelled from the Gdk collaborator: `Gdk.keyval_to_upper` on the ASCII
letter range. -/
def keyval_to_upper (kv : Nat) : Nat :=
  if 97 ≤ kv ∧ kv ≤ 122 then kv - 32 else kv

/-- ASCII lower-casing of one character (the case range the binding grammar
uses). -/
def toLowerChar (c : Char) : Char :=
  if 65 ≤ c.toNat ∧ c.toNat ≤ 90 then Char.ofNat (c.toNat + 32) else c

/-- ASCII upper-casing of one character. -/
def toUpperChar (c : Char) : Char :=
  if 97 ≤ c.toNat ∧ c.toNat ≤ 122 then Char.ofNat (c.toNat - 32) else c

/-- Python's `str.lower` on the ASCII range. -/
def pyLower (s : String) : String :=
  String.mk (s.toList.map toLowerChar)

/-- Python's `str.upper` on the ASCII range. -/
def pyUpper (s : String) : String :=
  String.mk (s.toList.map toUpperChar)

/-- Python's `str.capitalize`: first character upper-cased, rest lower. -/
def pyCapitalize (s : String) : String :=
  match s.toList with
  | [] => String.mk []
  | c :: cs => String.mk (toUpperChar c :: cs.map toLowerChar)

/-- Python's `str.strip`: drop leading and trailing whitespace. -/
def pyStrip (s : String) : String :=
  String.mk
    (((s.toList.dropWhile Char.isWhitespace).reverse.dropWhile Char.isWhitespace).reverse)

/-- Python's `str.split("+")` at the character level: split into the
(possibly empty) pieces between occurrences of the plus sign. -/
def splitPlusChars : List Char → List (List Char)
  | [] => [[]]
  | c :: cs =>
      let r := splitPlusChars cs
      if c = ('+') then [] :: r
      else
        match r with
        | [] => [[c]]
        | w :: ws => (c :: w) :: ws

/-- Python's `str.split("+")`. -/
def pySplitPlus (s : String) : List String :=
  (splitPlusChars s.toList).map String.mk

/-- The inner name-resolution loop of `_parse_binding`: try the token
verbatim, lower-cased, upper-cased, capitalized; the first name Gdk resolves
to a keyval other than 0 and `VoidSymbol` (16777215) wins. -/
def tryKeyNames (p : String) : Option Nat :=
  [p, pyLower p, pyUpper p, pyCapitalize p].findSome? fun n =>
    let kv := keyval_from_name n
    if kv ≠ 0 ∧ kv ≠ 16777215 then some kv else none

/-- `_parse_binding`: split on `+`; the case-insensitive names ctrl, shift,
alt, super each set one modifier bit; any other token is resolved through
`tryKeyNames` (an unresolvable token leaves the keyval unchanged); a binding
with no resolved keyval yields `(none, 0)`. -/
def parse_binding (text : String) : Option Nat × Nat :=
  let r := (pySplitPlus text).foldl
    (fun acc part =>
      let p := pyStrip part
      let low := pyLower p
      if low = ("ctrl") then (acc.1, acc.2 ||| GDK_CONTROL_MASK)
      else if low = ("shift") then (acc.1, acc.2 ||| GDK_SHIFT_MASK)
      else if low = ("alt") then (acc.1, acc.2 ||| GDK_MOD1_MASK)
      else if low = ("super") then (acc.1, acc.2 ||| GDK_SUPER_MASK)
      else
        match tryKeyNames p with
        | some kv => (some kv, acc.2)
        | none => acc)
    (none, 0)
  match r with
  | (some kv, mods) => (some kv, mods)
  | (none, _) => (none, 0)

/-- The keymap, modelled as the lookup function of the Python dict
(assignment overwrites, so last registration wins). -/
def Keymap : Type := Nat × Nat → Option String

/-- The empty keymap. -/
def kmEmpty : Keymap := fun _ => none

/-- Dict assignment `km[key] = action`. -/
def kmInsert (km : Keymap) (key : Nat × Nat) (a : String) : Keymap :=
  fun k2 => if k2 = key then some a else km k2

/-- `_build_keymap`: for each binding that parses, register the trigger; if
the keyval has distinct lower and upper case forms, additionally register
both case variants under the same modifier mask and action. -/
def build_keymap (bindings : List (String × String)) : Keymap :=
  bindings.foldl
    (fun km ab =>
      match parse_binding ab.2 with
      | (some kv, mods) =>
          let km1 := kmInsert km (kv, mods) ab.1
          let lo := keyval_to_lower kv
          let hi := keyval_to_upper kv
          if lo ≠ hi then kmInsert (kmInsert km1 (lo, mods) ab.1) (hi, mods) ab.1
          else km1
      | (none, _) => km)
    kmEmpty

/-- The fourteen action names of the `_handle_action` dispatch table. -/
def knownActions : List String :=
  ["split_vertical", "split_horizontal", "close_pane", "new_tab",
   "new_window", "next_pane", "search", "zoom_in", "zoom_out",
   "zoom_reset", "next_tab", "prev_tab", "copy", "paste"]

/-- A key-press event: raw keyval and raw modifier state. -/
structure KeyEvent where
  keyval : Nat
  state : Nat
deriving DecidableEq, Repr

/-- The observable effect of `TerminalWindow._on_key`. -/
inductive KeyEffect where
  | dispatchAct (a : String)
  | copySel
  | pasteClip
  | noEffect
deriving DecidableEq, Repr

/-- `TerminalWindow._on_key` together with `_handle_action`: mask the event
state to ctrl, shift and alt; a keymap hit dispatches the action and consumes
the event when the action name is known; otherwise Ctrl+C (without shift)
copies and consumes only when the focused pane exists and has a selection,
else is left unconsumed; Ctrl+V (without shift) pastes and consumes when a
focused pane exists.  Returns the effect and whether the event was consumed
(the handler's boolean result). -/
def on_key (km : Keymap) (hasFocused hasSelection : Bool) (ev : KeyEvent) :
    KeyEffect × Bool :=
  let state := ev.state &&& (GDK_CONTROL_MASK ||| GDK_SHIFT_MASK ||| GDK_MOD1_MASK)
  match km (ev.keyval, state) with
  | some a =>
      if knownActions.contains a then (.dispatchAct a, true) else (.noEffect, false)
  | none =>
      let ctrl := state &&& GDK_CONTROL_MASK ≠ 0
      let shift := state &&& GDK_SHIFT_MASK ≠ 0
      if ctrl ∧ ¬shift ∧ (ev.keyval = 99 ∨ ev.keyval = 67) then
        if hasFocused ∧ hasSelection then (.copySel, true) else (.noEffect, false)
      else if ctrl ∧ ¬shift ∧ (ev.keyval = 118 ∨ ev.keyval = 86) then
        if hasFocused then (.pasteClip, true) else (.noEffect, false)
      else (.noEffect, false)

/-! Helper lemmas (shared, not tied to a single claim). -/

theorem parseOrient_orientName (o : Orient) : parseOrient (orientName o) = o := by
  cases o <;> rfl

theorem roundtrip_layout_aux (t : PaneNode) :
    ∀ d : Nat, height t + d ≤ 20 →
      sameLayout (restore_tree (serialize_tree t) d) t = true := by
  induction t with
  | missing =>
      intro d _
      rfl
  | term i c =>
      intro d hd
      simp only [height] at hd
      simp [serialize_tree, restore_tree, sameLayout, Nat.not_lt.mpr (by omega : d ≤ 20)]
  | paned o p c1 c2 ih1 ih2 =>
      intro d hd
      simp only [height] at hd
      have hnot : ¬ d > 20 := by omega
      simp only [serialize_tree, restore_tree, if_neg hnot, Option.getD_some, sameLayout,
        parseOrient_orientName, Bool.and_eq_true, decide_eq_true_eq]
      exact ⟨⟨⟨trivial, trivial⟩, ih1 (d + 1) (by omega)⟩, ih2 (d + 1) (by omega)⟩

theorem Full_split (t : PaneNode) (L : Nat) (o : Orient) (n : Nat) (pos : Int)
    (h : Full t = true) : Full (split_pane t L o n pos) = true := by
  induction t with
  | missing => simp [Full] at h
  | term i c =>
      by_cases hiL : i = L <;> simp [split_pane, hiL, Full]
  | paned po pp c1 c2 ih1 ih2 =>
      simp only [Full, Bool.and_eq_true] at h
      simp only [split_pane, Full, Bool.and_eq_true]
      exact ⟨ih1 h.1, ih2 h.2⟩

theorem Full_close_in (t : PaneNode) (tid : Nat) (h : Full t = true) :
    Full (close_in t tid) = true := by
  induction t with
  | missing => simp [Full] at h
  | term i c => simpa [close_in] using h
  | paned o p c1 c2 ih1 ih2 =>
      simp only [Full, Bool.and_eq_true] at h
      simp only [close_in]
      split
      · exact h.2
      · split
        · exact h.1
        · simp only [Full, Bool.and_eq_true]
          exact ⟨ih1 h.1, ih2 h.2⟩

theorem isTermId_split (u : PaneNode) (L : Nat) (o : Orient) (newId : Nat) (pos : Int)
    (h : newId ∉ collect_terminals u) :
    isTermId (split_pane u L o newId pos) newId = false := by
  cases u with
  | missing => rfl
  | term i c =>
      have hi : i ≠ newId := by
        intro he
        exact h (by simp [collect_terminals, he])
      by_cases hiL : i = L
      · subst hiL
        simp [split_pane, isTermId]
      · simp [split_pane, hiL, isTermId, hi]
  | paned po pp c1 c2 => rfl

theorem close_in_split (u : PaneNode) (L : Nat) (o : Orient) (newId : Nat) (pos : Int)
    (h : newId ∉ collect_terminals u) :
    close_in (split_pane u L o newId pos) newId = u := by
  induction u with
  | missing => rfl
  | term i c =>
      have hi : i ≠ newId := by
        intro he
        exact h (by simp [collect_terminals, he])
      by_cases hiL : i = L
      · subst hiL
        simp [split_pane, close_in, isTermId, hi]
      · simp [split_pane, hiL, close_in]
  | paned po pp c1 c2 ih1 ih2 =>
      have h1 : newId ∉ collect_terminals c1 := by
        intro hm
        exact h (by simp [collect_terminals, hm])
      have h2 : newId ∉ collect_terminals c2 := by
        intro hm
        exact h (by simp [collect_terminals, hm])
      simp [split_pane, close_in, isTermId_split c1 L o newId pos h1,
        isTermId_split c2 L o newId pos h2, ih1 h1, ih2 h2]

/-! Claim theorems. -/

/-- C1 (counterexample): the round-trip contract fails as stated for a tree
built from a single leaf by 21 nested split operations — the restore depth
ceiling truncates the serialized document, so the restored tree does not have
the same structural shape as the original. -/
theorem C1_counterexample :
    sameLayout (restore_tree (serialize_tree (rightChain 21)) 0) (rightChain 21) = false := by
  decide

/-- C1 (amended): for every tree whose paned nesting height is at most 20
(so every node of the serialized document sits at recursion depth at most
20 — in particular every tree built by at most 20 nested splits),
deserializing the document produced by serializing it yields a tree with the
same structural shape, the same orientation and divider position at every
paned (after the deferred layout pass), and the same child order. -/
theorem C1_roundtrip_layout (t : PaneNode) (h : height t ≤ 20) :
    sameLayout (restore_tree (serialize_tree t) 0) t = true :=
  roundtrip_layout_aux t 0 (by omega)

/-- C1 (witness): the round trip at a concrete two-split tree. -/
theorem C1_witness :
    height (rightChain 2) ≤ 20 ∧
      sameLayout (restore_tree (serialize_tree (rightChain 2)) 0) (rightChain 2) = true :=
  ⟨by decide, C1_roundtrip_layout (rightChain 2) (by decide)⟩

/-- C2: every tree reachable from a single leaf by any sequence of split and
close operations satisfies the fullness invariant — it is never an empty
slot (so the minimal tree is a single leaf, never an empty paned) and every
paned node has exactly two non-missing children. -/
theorem C2_reachable_full (t : PaneNode) (h : Reachable t) : Full t = true := by
  induction h with
  | init i c => rfl
  | splitStep t L o n pos _ ih => exact Full_split t L o n pos ih
  | closeStep t t2 L _ hc ih =>
      cases t with
      | missing => simp [Full] at ih
      | term i c =>
          by_cases hi : i = L
          · simp [close_pane, hi] at hc
          · simp only [close_pane, if_neg hi, Option.some.injEq] at hc
            exact hc ▸ ih
      | paned o p c1 c2 =>
          simp only [close_pane, Option.some.injEq] at hc
          exact hc ▸ Full_close_in (.paned o p c1 c2) L ih

/-- C2 (witness): the invariant at a concrete reachable tree. -/
theorem C2_witness :
    Full (split_pane (.term 0 none) 0 .horizontal 1 400) = true :=
  C2_reachable_full _ (Reachable.splitStep _ 0 .horizontal 1 400 (Reachable.init 0 none))

/-- C4: splitting any leaf of a tree and then closing the freshly created
leaf restores a tree equal to the original (same shape, and the original
leaf keeps its state, including its working-directory hint), provided the
new leaf's identity is fresh. -/
theorem C4_split_close_inverse (t : PaneNode) (L : Nat) (o : Orient)
    (newId : Nat) (pos : Int) (h : newId ∉ collect_terminals t) :
    close_pane (split_pane t L o newId pos) newId = some t := by
  cases t with
  | missing => rfl
  | term i c =>
      have hi : i ≠ newId := by
        intro he
        exact h (by simp [collect_terminals, he])
      by_cases hiL : i = L
      · subst hiL
        simp [split_pane, close_pane, close_in, isTermId, hi]
      · simp [split_pane, hiL, close_pane, hi]
  | paned po pp c1 c2 =>
      exact congrArg some (close_in_split (.paned po pp c1 c2) L o newId pos h)

/-- C4 (witness): split then close at a concrete single-leaf tree. -/
theorem C4_witness :
    (1 ∉ collect_terminals (PaneNode.term 0 none)) ∧
      close_pane (split_pane (.term 0 none) 0 .vertical 1 400) 1 = some (.term 0 none) :=
  ⟨by decide, C4_split_close_inverse (.term 0 none) 0 .vertical 1 400 (by decide)⟩

/-- C3 (counterexample): a session document with a paned chain nested 25
levels deep does not restore to 20 levels' worth of structure — the restored
tree has paned nesting height 21 (recursion depths 0 through 20 all
restore), not 20. -/
theorem C3_counterexample : height (restore_tree (chainDoc 25) 0) ≠ 20 := by
  decide

/-- C3 (amended): restoring a paned chain nested 25 levels deep yields (with
no failure — `restore_tree` is total) exactly the first 21 levels' worth of
structure, i.e. the nodes at recursion depths 0 through 20; every subtree at
recursion depth strictly greater than 20 resolves to none. -/
theorem C3_depth_bounded :
    height (restore_tree (chainDoc 25) 0) = 21 ∧
      ∀ (d : PaneDoc) (n : Nat), 20 < n → restore_tree d n = .missing := by
  constructor
  · decide
  · intro d n hn
    cases d <;> simp [restore_tree, hn]

/-- C3 (witness): the depth bound at a concrete document and depth. -/
theorem C3_witness :
    height (restore_tree (chainDoc 25) 0) = 21 ∧ restore_tree (chainDoc 3) 21 = .missing :=
  ⟨C3_depth_bounded.1, C3_depth_bounded.2 (chainDoc 3) 21 (by decide)⟩

/-- C10: deserializing a paned document node whose children are null,
unrecognized, or beyond the depth ceiling yields a paned node whose failed
child slots are simply left empty — not `none` for the whole paned
subtree. -/
theorem C10_partial_restore :
    restore_tree (.panedDoc ("horizontal") (some 3) .null .null) 0 =
        .paned .horizontal 3 .missing .missing
      ∧ restore_tree (.panedDoc ("horizontal") (some 3) .unknown .unknown) 0 =
        .paned .horizontal 3 .missing .missing
      ∧ restore_tree (.panedDoc ("vertical") (some 3) (.terminal none) (.terminal none)) 20 =
        .paned .vertical 3 .missing .missing
      ∧ (PaneNode.paned .horizontal 3 .missing .missing ≠ .missing) := by
  decide

theorem listIndex_get (ts : List Nat) (hnd : ts.Nodup) :
    ∀ (i : Nat) (h : i < ts.length), listIndex ts (ts.get ⟨i, h⟩) = some i := by
  induction ts with
  | nil =>
      intro i h
      simp at h
  | cons x xs ih =>
      intro i h
      match i with
      | 0 => simp [listIndex]
      | Nat.succ j =>
          have hx : x ∉ xs := (List.nodup_cons.mp hnd).1
          have hj : j < xs.length := by simpa using h
          have hne : x ≠ xs.get ⟨j, hj⟩ := by
            intro he
            exact hx (he ▸ List.get_mem xs j hj)
          have hgj : (x :: xs).get ⟨j + 1, h⟩ = xs.get ⟨j, hj⟩ := rfl
          rw [hgj]
          simp only [listIndex, if_neg hne, ih (List.nodup_cons.mp hnd).2 j hj,
            Option.map_some']

theorem listIndex_none (ts : List Nat) (c : Nat) (h : c ∉ ts) :
    listIndex ts c = none := by
  induction ts with
  | nil => rfl
  | cons x xs ih =>
      have hx : x ≠ c := by
        intro he
        exact h (by simp [he])
      simp [listIndex, hx, ih (fun hm => h (by simp [hm]))]

theorem navList_get (ts : List Nat) (hnd : ts.Nodup) (i : Nat) (h : i < ts.length) :
    navList ts (some (ts.get ⟨i, h⟩)) = ts.get? ((i + 1) % ts.length) := by
  have hne : ts.isEmpty = false := by
    cases ts with
    | nil => simp at h
    | cons a l => rfl
  unfold navList
  rw [hne]
  simp only [Bool.false_eq_true, if_false, listIndex_get ts hnd i h]

theorem navPow_get (t : PaneNode) (hnd : (collect_terminals t).Nodup)
    (i : Nat) (h : i < (collect_terminals t).length) :
    ∀ k, navPow t (some ((collect_terminals t).get ⟨i, h⟩)) k =
      (collect_terminals t).get? ((i + k) % (collect_terminals t).length) := by
  intro k
  induction k with
  | zero =>
      simp [navPow, Nat.mod_eq_of_lt h, List.get?_eq_get h]
  | succ k ihk =>
      have hm : (i + k) % (collect_terminals t).length < (collect_terminals t).length :=
        Nat.mod_lt _ (by omega)
      rw [navPow, ihk, List.get?_eq_get hm]
      show navigate_next t (some _) = _
      rw [navigate_next, navList_get (collect_terminals t) hnd _ hm, Nat.mod_add_mod,
        Nat.add_assoc]

/-- C5: `navigate_next` enumerates the leaves of the tree in pre-order
left-to-right traversal order (the `collect_terminals` order) and moves
focus to the leaf at index `(index(current) + 1) mod N` (the code's
direction is the fixed `+1` of `navigate_next`), wrapping cyclically; a
current leaf not in the tree yields the first leaf; consequently, from any
leaf, N successive calls return to the starting leaf, visiting each of the
N leaves exactly once. -/
theorem C5_navigation_cycle (t : PaneNode) (c : Nat)
    (hnd : (collect_terminals t).Nodup) (hc : c ∈ collect_terminals t) :
    (∀ i0, listIndex (collect_terminals t) c = some i0 →
        navigate_next t (some c) =
          (collect_terminals t).get? ((i0 + 1) % (collect_terminals t).length))
    ∧ (∀ c2, c2 ∉ collect_terminals t →
        navigate_next t (some c2) = (collect_terminals t).head?)
    ∧ navPow t (some c) (collect_terminals t).length = some c
    ∧ (∀ x ∈ collect_terminals t, ∃ k, k < (collect_terminals t).length ∧
        navPow t (some c) k = some x)
    ∧ (∀ k1 k2, k1 < (collect_terminals t).length → k2 < (collect_terminals t).length →
        navPow t (some c) k1 = navPow t (some c) k2 → k1 = k2) := by
  obtain ⟨i, h, hget⟩ := List.mem_iff_getElem.mp hc
  have hget2 : (collect_terminals t).get ⟨i, h⟩ = c := hget
  have hpos : 0 < (collect_terminals t).length := by omega
  refine ⟨?_, ?_, ?_, ?_, ?_⟩
  · intro i0 hi0
    rw [← hget2] at hi0 ⊢
    rw [listIndex_get _ hnd i h] at hi0
    injection hi0 with hii
    subst hii
    rw [navigate_next, navList_get _ hnd i h]
  · intro c2 hc2
    have hne : (collect_terminals t).isEmpty = false := by
      cases hts : collect_terminals t with
      | nil =>
          rw [hts] at h
          simp at h
      | cons a l => rfl
    unfold navigate_next navList
    rw [hne]
    simp only [Bool.false_eq_true, if_false, listIndex_none _ _ hc2, List.get?_zero]
  · rw [← hget2, navPow_get t hnd i h, Nat.add_mod_right, Nat.mod_eq_of_lt h,
      List.get?_eq_get h]
  · intro x hx
    obtain ⟨j, hj, hgj⟩ := List.mem_iff_getElem.mp hx
    have hgj2 : (collect_terminals t).get ⟨j, hj⟩ = x := hgj
    refine ⟨(j + (collect_terminals t).length - i) % (collect_terminals t).length,
      Nat.mod_lt _ hpos, ?_⟩
    rw [← hget2, navPow_get t hnd i h]
    have harith :
        (i + (j + (collect_terminals t).length - i) % (collect_terminals t).length)
          % (collect_terminals t).length = j := by
      rw [Nat.add_mod_mod]
      have hsum : i + (j + (collect_terminals t).length - i)
          = j + (collect_terminals t).length := by omega
      rw [hsum, Nat.add_mod_right, Nat.mod_eq_of_lt hj]
    rw [harith, List.get?_eq_get hj, hgj2]
  · intro k1 k2 hk1 hk2 heq
    rw [← hget2, navPow_get t hnd i h, navPow_get t hnd i h] at heq
    have hm1 : (i + k1) % (collect_terminals t).length < (collect_terminals t).length :=
      Nat.mod_lt _ hpos
    have hm2 : (i + k2) % (collect_terminals t).length < (collect_terminals t).length :=
      Nat.mod_lt _ hpos
    rw [List.get?_eq_get hm1, List.get?_eq_get hm2] at heq
    injection heq with heq2
    have hidx := (hnd.get_inj_iff).mp heq2
    have hvals : (i + k1) % (collect_terminals t).length
        = (i + k2) % (collect_terminals t).length := congrArg Fin.val hidx
    have h12 : k1 % (collect_terminals t).length = k2 % (collect_terminals t).length :=
      Nat.ModEq.add_left_cancel' i hvals
    rwa [Nat.mod_eq_of_lt hk1, Nat.mod_eq_of_lt hk2] at h12

/-- C5 (witness): the full cycle on a concrete three-leaf tree. -/
theorem C5_witness :
    navPow (rightChain 2) (some 1) (collect_terminals (rightChain 2)).length = some 1 :=
  (C5_navigation_cycle (rightChain 2) 1 (by decide) (by decide)).2.2.1

theorem findTab_append (pre : List PaneNode) (r : PaneNode) (post : List PaneNode)
    (tid : Nat) (hpre : ∀ u ∈ pre, contains u tid = false)
    (hr : contains r tid = true) :
    findTab (pre ++ r :: post) tid = some pre.length := by
  induction pre with
  | nil => simp [findTab, hr]
  | cons u us ih =>
      have hu : contains u tid = false := hpre u (by simp)
      simp [findTab, hu, ih (fun v hv => hpre v (by simp [hv]))]

theorem get?_append_len (pre : List PaneNode) (r : PaneNode) (post : List PaneNode) :
    (pre ++ r :: post).get? pre.length = some r := by
  induction pre with
  | nil => rfl
  | cons u us ih => exact ih

theorem eraseIdx_append_len (pre : List PaneNode) (r : PaneNode) (post : List PaneNode) :
    (pre ++ r :: post).eraseIdx pre.length = pre ++ post := by
  induction pre with
  | nil => rfl
  | cons u us ih => exact congrArg (List.cons u) ih

theorem set_append_len (pre : List PaneNode) (r x : PaneNode) (post : List PaneNode) :
    (pre ++ r :: post).set pre.length x = pre ++ x :: post := by
  induction pre with
  | nil => rfl
  | cons u us ih => exact congrArg (List.cons u) ih

theorem getElem_append_len (pre : List PaneNode) (r : PaneNode) (post : List PaneNode)
    (h : pre.length < (pre ++ r :: post).length) : (pre ++ r :: post)[pre.length] = r := by
  induction pre with
  | nil => rfl
  | cons u us ih => exact ih (by simp)

/-- C6: closing the sole root leaf of the only tab closes the window (not a
dangling empty tree); closing a tab's root leaf when other tabs exist
destroys exactly that tab; closing a leaf nested in a tab rewrites only that
tab's tree via `close_in`; at the tree level the sibling replaces the parent
paned (whether the closed leaf was `child1` or `child2`), and a paned that is
not the closed leaf's parent keeps its orientation and divider position
untouched. -/
theorem C6_close_semantics :
    (∀ (i : Nat) (c : Option String), window_close_pane [PaneNode.term i c] i = .windowClosed)
    ∧ (∀ pre post (i : Nat) (c : Option String), (∀ u ∈ pre, contains u i = false) →
        (pre ++ PaneNode.term i c :: post).length > 1 →
        window_close_pane (pre ++ PaneNode.term i c :: post) i = .tabs (pre ++ post))
    ∧ (∀ pre post o p c1 c2 (i : Nat), (∀ u ∈ pre, contains u i = false) →
        contains (PaneNode.paned o p c1 c2) i = true →
        window_close_pane (pre ++ PaneNode.paned o p c1 c2 :: post) i =
          .tabs (pre ++ close_in (PaneNode.paned o p c1 c2) i :: post))
    ∧ (∀ o p s (i : Nat) (c : Option String),
        close_in (PaneNode.paned o p (PaneNode.term i c) s) i = s)
    ∧ (∀ o p s (i : Nat) (c : Option String), isTermId s i = false →
        close_in (PaneNode.paned o p s (PaneNode.term i c)) i = s)
    ∧ (∀ o p c1 c2 (i : Nat), isTermId c1 i = false → isTermId c2 i = false →
        close_in (PaneNode.paned o p c1 c2) i = .paned o p (close_in c1 i) (close_in c2 i)) := by
  refine ⟨?_, ?_, ?_, ?_, ?_, ?_⟩
  · intro i c
    simp [window_close_pane, findTab, contains, collect_terminals]
  · intro pre post i c hpre hlen
    have h1 := findTab_append pre (PaneNode.term i c) post i hpre
      (by simp [contains, collect_terminals])
    have h2 := get?_append_len pre (PaneNode.term i c) post
    have hgt : ¬ (pre ++ PaneNode.term i c :: post).length ≤ 1 := by
      omega
    unfold window_close_pane
    rw [h1]
    simp [h2, hgt, eraseIdx_append_len, getElem_append_len]
    rw [List.length_append, List.length_cons] at hlen
    omega
  · intro pre post o p c1 c2 i hpre hr
    have h1 := findTab_append pre (PaneNode.paned o p c1 c2) post i hpre hr
    have h2 := get?_append_len pre (PaneNode.paned o p c1 c2) post
    unfold window_close_pane
    rw [h1]
    simp [h2, set_append_len, getElem_append_len]
  · intro o p s i c
    simp [close_in, isTermId]
  · intro o p s i c hs
    simp only [close_in, hs, Bool.false_eq_true, if_false]
    simp [isTermId]
  · intro o p c1 c2 i h1 h2
    simp [close_in, h1, h2]

/-- C6 (witness): closing a root leaf in a two-tab window removes that tab. -/
theorem C6_witness :
    window_close_pane [PaneNode.term 1 none, PaneNode.term 7 none] 7 =
      .tabs [PaneNode.term 1 none] :=
  C6_close_semantics.2.1 [PaneNode.term 1 none] [] 7 none
    (by
      intro u hu
      rw [List.mem_singleton] at hu
      subst hu
      decide)
    (by decide)

/-- C7: for a key event not matched by the keymap, Ctrl+C (event modifiers
masking to exactly Control, either letter-case keyval) with a focused pane
holding an active selection copies the selection and consumes the event;
Ctrl+C with no selection produces no action and leaves the event unconsumed;
Ctrl+V with a focused pane pastes and consumes the event. -/
theorem C7_smart_bindings (km : Keymap) (s kvc kvv : Nat) (foc sel : Bool)
    (hs : s &&& (GDK_CONTROL_MASK ||| GDK_SHIFT_MASK ||| GDK_MOD1_MASK) = GDK_CONTROL_MASK)
    (hkc : kvc = 99 ∨ kvc = 67) (hkv : kvv = 118 ∨ kvv = 86)
    (hlc : km (kvc, GDK_CONTROL_MASK) = none)
    (hlv : km (kvv, GDK_CONTROL_MASK) = none) :
    on_key km true true ⟨kvc, s⟩ = (.copySel, true)
    ∧ on_key km foc false ⟨kvc, s⟩ = (.noEffect, false)
    ∧ on_key km true sel ⟨kvv, s⟩ = (.pasteClip, true) := by
  refine ⟨?_, ?_, ?_⟩ <;>
    rcases hkc with hkc | hkc <;> rcases hkv with hkv | hkv <;> subst hkc <;> subst hkv <;>
      simp_all [on_key, GDK_CONTROL_MASK, GDK_SHIFT_MASK, GDK_MOD1_MASK]

/-- C7 (witness): the smart bindings on the empty keymap at concrete
events. -/
theorem C7_witness :
    on_key kmEmpty true true ⟨99, 4⟩ = (.copySel, true)
    ∧ on_key kmEmpty false false ⟨99, 4⟩ = (.noEffect, false)
    ∧ on_key kmEmpty true false ⟨118, 4⟩ = (.pasteClip, true) :=
  ⟨(C7_smart_bindings kmEmpty 4 99 118 false false (by decide) (Or.inl rfl) (Or.inl rfl)
      rfl rfl).1,
   (C7_smart_bindings kmEmpty 4 99 118 false false (by decide) (Or.inl rfl) (Or.inl rfl)
      rfl rfl).2.1,
   (C7_smart_bindings kmEmpty 4 99 118 false false (by decide) (Or.inl rfl) (Or.inl rfl)
      rfl rfl).2.2⟩

/-- C8: for a binding whose parsed keyval has distinct lower and upper case
forms, `build_keymap` registers both case variants under the same modifier
mask and action, so the binding registered once matches key events reporting
either letter case under that modifier mask (consumed, dispatching the
action, whenever the action name is one of the dispatch table's and the mask
uses only the tracked ctrl/shift/alt bits). -/
theorem C8_case_variants (a s : String) (kv mods : Nat) (foc sel : Bool)
    (hparse : parse_binding s = (some kv, mods))
    (hne : keyval_to_lower kv ≠ keyval_to_upper kv)
    (hmask : mods &&& (GDK_CONTROL_MASK ||| GDK_SHIFT_MASK ||| GDK_MOD1_MASK) = mods)
    (hknown : knownActions.contains a = true) :
    build_keymap [(a, s)] (keyval_to_lower kv, mods) = some a
    ∧ build_keymap [(a, s)] (keyval_to_upper kv, mods) = some a
    ∧ on_key (build_keymap [(a, s)]) foc sel ⟨keyval_to_lower kv, mods⟩ =
        (.dispatchAct a, true)
    ∧ on_key (build_keymap [(a, s)]) foc sel ⟨keyval_to_upper kv, mods⟩ =
        (.dispatchAct a, true) := by
  have hb : build_keymap [(a, s)] =
      kmInsert (kmInsert (kmInsert kmEmpty (kv, mods) a) (keyval_to_lower kv, mods) a)
        (keyval_to_upper kv, mods) a := by
    unfold build_keymap
    rw [List.foldl_cons, List.foldl_nil, hparse]
    simp [hne]
  have hlo : build_keymap [(a, s)] (keyval_to_lower kv, mods) = some a := by
    rw [hb]
    unfold kmInsert
    rw [if_neg (by simp [hne]), if_pos rfl]
  have hhi : build_keymap [(a, s)] (keyval_to_upper kv, mods) = some a := by
    rw [hb]
    unfold kmInsert
    rw [if_pos rfl]
  have hmem : a ∈ knownActions := by
    simpa using hknown
  refine ⟨hlo, hhi, ?_, ?_⟩ <;>
    simp [on_key, hmask, hlo, hhi, hmem]

/-- C8 (witness): the default `split_vertical` binding "Ctrl+Shift+D"
matches both the lower-case and the upper-case keyval under Ctrl+Shift. -/
theorem C8_witness :
    build_keymap [("split_vertical", "Ctrl+Shift+D")] (100, 5) = some ("split_vertical")
    ∧ build_keymap [("split_vertical", "Ctrl+Shift+D")] (68, 5) = some ("split_vertical") :=
  ⟨(C8_case_variants ("split_vertical") ("Ctrl+Shift+D") 68 5 false false (by decide) (by decide)
      (by decide) (by decide)).1,
   (C8_case_variants ("split_vertical") ("Ctrl+Shift+D") 68 5 false false (by decide) (by decide)
      (by decide) (by decide)).2.1⟩

theorem headSomeMem (l : List Nat) (f : Nat) (h : l.head? = some f) : f ∈ l := by
  cases l with
  | nil => simp at h
  | cons x xs =>
      simp only [List.head?_cons, Option.some.injEq] at h
      rw [← h]
      exact List.mem_cons_self x xs

theorem close_focus_mem (t : PaneNode) (tid : Nat) :
    ∀ f, close_focus t tid = some f → f ∈ collect_terminals (close_in t tid) := by
  induction t with
  | missing =>
      intro f hf
      simp [close_focus] at hf
  | term i c =>
      intro f hf
      simp [close_focus] at hf
  | paned o p c1 c2 ih1 ih2 =>
      intro f hf
      by_cases h1 : isTermId c1 tid = true
      · simp only [close_focus, close_in, h1, if_true] at hf ⊢
        exact headSomeMem _ f hf
      · rw [Bool.not_eq_true] at h1
        by_cases h2 : isTermId c2 tid = true
        · simp only [close_focus, close_in, h1, h2, Bool.false_eq_true, if_false,
            if_true] at hf ⊢
          exact headSomeMem _ f hf
        · rw [Bool.not_eq_true] at h2
          simp only [close_focus, close_in, h1, h2, Bool.false_eq_true, if_false] at hf ⊢
          simp only [collect_terminals, List.mem_append]
          cases hcf : close_focus c1 tid with
          | some f1 =>
              rw [hcf] at hf
              injection hf with hf1
              exact Or.inl (hf1 ▸ ih1 f1 hcf)
          | none =>
              rw [hcf] at hf
              exact Or.inr (ih2 f hf)

/-- C9 (counterexample): in the tree `paned(A, paned(B, C))`, closing `B`
moves focus to `C` (the first leaf of the sibling subtree), while the first
leaf in traversal order of the resulting tree `paned(A, C)` is `A` — so the
claim that focus moves to the first leaf of the resulting tree is false. -/
theorem C9_counterexample :
    ¬ (close_focus (PaneNode.paned .horizontal 0 (.term 0 none)
          (.paned .horizontal 0 (.term 1 none) (.term 2 none))) 1
        = (close_pane (PaneNode.paned .horizontal 0 (.term 0 none)
            (.paned .horizontal 0 (.term 1 none) (.term 2 none))) 1).bind
              (fun t2 => (collect_terminals t2).head?)) := by
  decide

/-- C9 (amended): after closing a nested leaf, focus moves to the first leaf
in traversal order of the sibling subtree that replaced the closed leaf's
parent paned (whichever child slot the closed leaf occupied); that leaf is a
member of the resulting tree, but not necessarily the resulting tree's first
leaf. -/
theorem C9_focus_after_close :
    (∀ o p s (tid : Nat) (c : Option String),
        close_focus (PaneNode.paned o p (.term tid c) s) tid
          = (collect_terminals s).head?)
    ∧ (∀ o p s (tid : Nat) (c : Option String), isTermId s tid = false →
        close_focus (PaneNode.paned o p s (.term tid c)) tid
          = (collect_terminals s).head?)
    ∧ (∀ t (tid f : Nat) (t2 : PaneNode), close_focus t tid = some f →
        close_pane t tid = some t2 → f ∈ collect_terminals t2) := by
  refine ⟨?_, ?_, ?_⟩
  · intro o p s tid c
    simp [close_focus, isTermId]
  · intro o p s tid c hs
    simp only [close_focus, hs, Bool.false_eq_true, if_false]
    simp [isTermId]
  · intro t tid f t2 hf hc
    cases t with
    | missing => simp [close_focus] at hf
    | term i c => simp [close_focus] at hf
    | paned o p c1 c2 =>
        simp only [close_pane, Option.some.injEq] at hc
        exact hc ▸ close_focus_mem (.paned o p c1 c2) tid f hf

/-- C9 (witness): the amended focus rule at the counterexample tree — the
focused leaf 2 is a member of the resulting tree. -/
theorem C9_witness :
    2 ∈ collect_terminals (PaneNode.paned .horizontal 0 (.term 0 none) (.term 2 none)) :=
  C9_focus_after_close.2.2
    (PaneNode.paned .horizontal 0 (.term 0 none)
      (.paned .horizontal 0 (.term 1 none) (.term 2 none)))
    1 2 (PaneNode.paned .horizontal 0 (.term 0 none) (.term 2 none))
    (by decide) (by decide)
